import Mathlib

/- Shallow embedding of src/legal/schatz/ardc_complaint/schatz_evidence_processor.py
   (class SchatzEvidenceProcessor).

   Modelling conventions:
   - Python `str` values are `List Char` (`Str` below).
   - Timestamps are `Nat`: an abstract, totally ordered clock standing in for
     ISO-format strings and the server CURRENT_TIMESTAMP.  Only order matters
     to the code (ORDER BY ingested_at); the isoformat rendering is injective
     and monotone, so `Nat` is a faithful abstraction.
   - The filesystem, the ChittyID HTTP endpoint and the SHA-256 digest are
     abstract functions packaged in an `Env` record; `none` models the
     corresponding Python exception (OSError / requests.RequestException / read
     failure).  The startup guards for CHITTY_ID_TOKEN and the connection
     string (lines 99-101, 21-23) are assumed satisfied: a configured `Env`
     exists.
   - The PostgreSQL table `evidence_ledger` is a `List EvidenceRow`; the SQL
     `INSERT ... ON CONFLICT (chitty_id) DO UPDATE SET ...` of lines 229-247 is
     the function `upsert`.  The database itself is modelled as not failing
     (no claim under consideration concerns storage failure). -/

namespace Schatz

/-- Text values: Python strings as lists of characters. -/
abbrev Str := List Char

/-- Python `str.lower`, character by character. -/
def pyLower (s : Str) : Str := s.map Char.toLower

/-- The Python default whitespace set for `str.strip`. -/
def pyIsSpace (c : Char) : Bool :=
  c == ' ' || c == '\t' || c == '\n' || c == '\r' || c == '\x0b' || c == '\x0c'

/-- Python `str.strip()`: drop leading and trailing whitespace. -/
def pyStrip (s : Str) : Str :=
  ((s.dropWhile pyIsSpace).reverse.dropWhile pyIsSpace).reverse

/-- Python `content.split('\n')` (line 152): always returns at least one piece. -/
def splitOnNl : Str → List Str
  | [] => [[]]
  | c :: cs =>
    match splitOnNl cs with
    | [] => [[c]]
    | piece :: rest => if c = '\n' then [] :: piece :: rest else (c :: piece) :: rest

/-- Python `os.path.basename` (line 198) for ordinary relative/absolute paths:
the part after the last slash. -/
def pyBasename (s : Str) : Str := (s.reverse.takeWhile (fun c => c != '/')).reverse

/-- Python `os.path.join(root, file)` (line 282) in the common case where
`root` does not end in a slash and `file` is relative. -/
def pyJoin (a b : Str) : Str := a ++ '/' :: b

/-- The Python `needle in haystack` substring test on strings. -/
def strContains (needle : Str) : Str → Bool
  | [] => needle.isEmpty
  | c :: cs => needle.isPrefixOf (c :: cs) || strContains needle cs

/-- Python truthiness of an optional string: `None` and the empty string are falsy. -/
def pyTruthy : Option Str → Bool
  | none => false
  | some s => !s.isEmpty

/-- Extension filter of `scan_directory` (line 281):
`file.lower().endswith(tuple)` over .eml .msg .pdf .txt .docx. -/
def eligible (filename : Str) : Bool :=
  [".eml", ".msg", ".pdf", ".txt", ".docx"].any
    (fun ext => List.isSuffixOf ext.toList (pyLower filename))

/-- Response body of the ChittyID service: HTTP status plus the `chitty_id`
field of the JSON body (used only on status 200). -/
structure IdResponse where
  status : Nat
  chitty_id : Str
deriving DecidableEq

/-- Result of `os.stat` (lines 104, 195). -/
structure FileStats where
  st_size : Nat
  st_ctime : Nat
  st_mtime : Nat
deriving DecidableEq

/-- Abstract environment: filesystem, ChittyID endpoint and digest.  `none`
models the corresponding Python exception. -/
structure Env where
  svc : Str → Option IdResponse
  stat : Str → Option FileStats
  readText : Str → Option Str
  readBytes : Str → Option (List Nat)
  sha256hex : List Nat → Str

/-- Embedding of `generate_chitty_id` (lines 96-134): stat the file, POST to
the service; transport failure or any non-200 status raises (here: `.error`),
so no placeholder identifier is ever produced. -/
def generate_chitty_id (env : Env) (filepath : Str) : Except Str Str :=
  match env.stat filepath with
  | none => .error ("stat failed").toList
  | some _ =>
    match env.svc filepath with
    | none => .error ("Failed to connect to ChittyID service").toList
    | some response =>
      if response.status == 200 then .ok response.chitty_id
      else .error ("ChittyID service error").toList

/-- Embedding of `calculate_file_hash` (lines 136-142): digest of the raw
bytes; an unreadable file raises (here: `.error`). -/
def calculate_file_hash (env : Env) (filepath : Str) : Except Str Str :=
  match env.readBytes filepath with
  | none => .error ("IOError").toList
  | some bytes => .ok (env.sha256hex bytes)

/-- The metadata dict built by `extract_email_metadata`: at most one value per
header label; `none` = key absent. -/
structure EmailMeta where
  from_ : Option Str
  to_ : Option Str
  subject : Option Str
  date : Option Str
deriving DecidableEq

/-- The empty metadata dict `{}`. -/
def EmailMeta.empty : EmailMeta := ⟨none, none, none, none⟩

/-- Loop body of lines 154-161: the if/elif chain over one line.  `line[k:]`
is `line.drop k`; `.strip()` is `pyStrip`. -/
def headerStep (metadata : EmailMeta) (line : Str) : EmailMeta :=
  if List.isPrefixOf ("From:").toList line then
    { metadata with from_ := some (pyStrip (line.drop 5)) }
  else if List.isPrefixOf ("To:").toList line then
    { metadata with to_ := some (pyStrip (line.drop 3)) }
  else if List.isPrefixOf ("Subject:").toList line then
    { metadata with subject := some (pyStrip (line.drop 8)) }
  else if List.isPrefixOf ("Date:").toList line then
    { metadata with date := some (pyStrip (line.drop 5)) }
  else metadata

/-- Embedding of `extract_email_metadata` (lines 144-166): read the file
permissively, split on newlines, scan the first 50 lines with the if/elif
chain; any read failure degrades to the empty dict. -/
def extract_email_metadata (env : Env) (filepath : Str) : EmailMeta :=
  match env.readText filepath with
  | none => EmailMeta.empty
  | some content => ((splitOnNl content).take 50).foldl headerStep EmailMeta.empty

/-- Legal-process terms of line 183. -/
def legalTerms : List Str := [("attorney").toList, ("legal").toList, ("counsel").toList]

/-- Financial terms of line 185. -/
def financialTerms : List Str := [("retainer").toList, ("billing").toList, ("invoice").toList]

/-- Embedding of `assess_schatz_relevance` (lines 168-188): case-insensitive
keyword rules, contributions summed, clamped with `min(score, 10)`. -/
def assess_schatz_relevance (filepath : Str) (content_sample : Str) : Int :=
  let filepath_lower := pyLower filepath
  let content_lower := pyLower content_sample
  let s1 : Int :=
    if strContains ("schatz").toList filepath_lower ||
       strContains ("schatz").toList content_lower then 0 + 8 else 0
  let s2 := if strContains ("jonathanschatz@allenglassman.com").toList content_lower
            then s1 + 9 else s1
  let s3 := if strContains ("allen glassman").toList content_lower then s2 + 6 else s2
  let s4 := if legalTerms.any (fun term => strContains term content_lower)
            then s3 + 3 else s3
  let s5 := if financialTerms.any (fun term => strContains term content_lower)
            then s4 + 4 else s4
  min s5 10

/-- The 14-tuple bound into the INSERT statement (lines 248-263): everything
the pipeline supplies for one document. -/
structure EvidenceRecord where
  chitty_id : Str
  original_path : Str
  filename : Str
  file_hash : Str
  file_size : Nat
  content_type : Str
  created_at : Nat
  modified_at : Nat
  schatz_relevance_score : Int
  document_type : Str
  email_from : Str
  email_to : Str
  email_subject : Str
  email_date : Str
deriving DecidableEq

/-- One row of the `evidence_ledger` table (lines 56-78).  Nullable columns
that the pipeline does not always populate are `Option`. -/
structure EvidenceRow where
  chitty_id : Str
  original_path : Str
  filename : Str
  file_hash : Str
  file_size : Nat
  content_type : Str
  created_at : Nat
  modified_at : Nat
  ingested_at : Nat
  schatz_relevance_score : Int
  document_type : Str
  email_from : Option Str
  email_to : Option Str
  email_subject : Option Str
  email_date : Option Str
  tags : Option Str
  summary : Option Str
  legal_privilege : Option Str
  evidence_category : Option Str
deriving DecidableEq

/-- The INSERT arm of the upsert: a fresh row; `ingested_at` takes the server
clock (DEFAULT CURRENT_TIMESTAMP, line 66); the annotation columns are not in
the column list, hence NULL. -/
def insertRow (now : Nat) (r : EvidenceRecord) : EvidenceRow :=
  { chitty_id := r.chitty_id
    original_path := r.original_path
    filename := r.filename
    file_hash := r.file_hash
    file_size := r.file_size
    content_type := r.content_type
    created_at := r.created_at
    modified_at := r.modified_at
    ingested_at := now
    schatz_relevance_score := r.schatz_relevance_score
    document_type := r.document_type
    email_from := some r.email_from
    email_to := some r.email_to
    email_subject := some r.email_subject
    email_date := some r.email_date
    tags := none
    summary := none
    legal_privilege := none
    evidence_category := none }

/-- The DO UPDATE SET arm (lines 235-247): exactly the twelve listed columns
are overwritten from EXCLUDED; every other column keeps the value already in the row. -/
def updateRow (r : EvidenceRecord) (row : EvidenceRow) : EvidenceRow :=
  { row with
    original_path := r.original_path
    filename := r.filename
    file_hash := r.file_hash
    file_size := r.file_size
    content_type := r.content_type
    modified_at := r.modified_at
    schatz_relevance_score := r.schatz_relevance_score
    document_type := r.document_type
    email_from := some r.email_from
    email_to := some r.email_to
    email_subject := some r.email_subject
    email_date := some r.email_date }

/-- Conflict test of `ON CONFLICT (chitty_id)`. -/
def rowMatches (r : EvidenceRecord) (row : EvidenceRow) : Bool :=
  row.chitty_id == r.chitty_id

/-- The upsert of lines 229-263 as a function on the ledger list: update in
place on a chitty_id conflict, otherwise append a fresh row. -/
def upsert (now : Nat) (r : EvidenceRecord) (L : List EvidenceRow) : List EvidenceRow :=
  if L.any (rowMatches r) then
    L.map (fun row => if rowMatches r row then updateRow r row else row)
  else
    L ++ [insertRow now r]

/-- Lines 202-220 of `process_document`: document type, email metadata and
content sample from the (case-sensitive) extension of the full path.  A failed
sample read is swallowed (`except: pass`), leaving the sample empty. -/
def classify_document (env : Env) (filepath : Str) : Str × EmailMeta × Str :=
  if List.isSuffixOf (".eml").toList filepath then
    (("EMAIL").toList,
     extract_email_metadata env filepath,
     match env.readText filepath with
     | some content => content.take 10000
     | none => [])
  else if List.isSuffixOf (".pdf").toList filepath then
    (("PDF").toList, EmailMeta.empty, [])
  else if List.isSuffixOf (".txt").toList filepath then
    (("TEXT").toList, EmailMeta.empty,
     match env.readText filepath with
     | some content => content.take 5000
     | none => [])
  else
    (("UNKNOWN").toList, EmailMeta.empty, [])

/-- The 14-tuple of lines 248-263: `document_type` is passed for both the
`content_type` and `document_type` columns; missing email headers default to
the empty string via the dict get default. -/
def build_record (filepath : Str) (chitty_id file_hash : Str) (file_stats : FileStats)
    (document_type : Str) (email_metadata : EmailMeta) (relevance_score : Int) :
    EvidenceRecord :=
  { chitty_id := chitty_id
    original_path := filepath
    filename := pyBasename filepath
    file_hash := file_hash
    file_size := file_stats.st_size
    content_type := document_type
    created_at := file_stats.st_ctime
    modified_at := file_stats.st_mtime
    schatz_relevance_score := relevance_score
    document_type := document_type
    email_from := email_metadata.from_.getD []
    email_to := email_metadata.to_.getD []
    email_subject := email_metadata.subject.getD []
    email_date := email_metadata.date.getD [] }

/-- Embedding of `process_document` (lines 190-272): mint the identity, hash,
stat, classify, score, upsert.  Any failure before the upsert is caught by the
outer `except` and yields `(none, L)` — no row is written and no identifier is
returned. -/
def process_document (env : Env) (now : Nat) (filepath : Str) (L : List EvidenceRow) :
    Option Str × List EvidenceRow :=
  match generate_chitty_id env filepath with
  | .error _ => (none, L)
  | .ok chitty_id =>
    match calculate_file_hash env filepath with
    | .error _ => (none, L)
    | .ok file_hash =>
      match env.stat filepath with
      | none => (none, L)
      | some file_stats =>
        let classified := classify_document env filepath
        let document_type := classified.1
        let email_metadata := classified.2.1
        let content_sample := classified.2.2
        let relevance_score := assess_schatz_relevance filepath content_sample
        let record := build_record filepath chitty_id file_hash file_stats
          document_type email_metadata relevance_score
        (some chitty_id, upsert now record L)

/-- Embedding of `scan_directory` (lines 274-288).  The walk is abstracted as
the list of (directory, filename) pairs `os.walk` yields; eligible files are
processed in order and the count increments exactly when the returned
`chitty_id` is truthy (`if chitty_id:`). -/
def scan_directory (env : Env) (now : Nat) (files : List (Str × Str))
    (L : List EvidenceRow) : Nat × List EvidenceRow :=
  files.foldl
    (fun acc entry =>
      if eligible entry.2 then
        let result := process_document env now (pyJoin entry.1 entry.2) acc.2
        (if pyTruthy result.1 then acc.1 + 1 else acc.1, result.2)
      else acc)
    (0, L)

/-- Comparator realising `ORDER BY schatz_relevance_score DESC, ingested_at`
(line 299). -/
def reportLe (a b : EvidenceRow) : Bool :=
  decide (b.schatz_relevance_score < a.schatz_relevance_score) ||
  (a.schatz_relevance_score == b.schatz_relevance_score &&
   decide (a.ingested_at ≤ b.ingested_at))

/-- The report query (lines 296-300): all rows with score at least the
threshold, ordered by descending score then ascending ingestion time. -/
def query_by_min_score (threshold : Int) (L : List EvidenceRow) : List EvidenceRow :=
  (L.filter (fun row => decide (threshold ≤ row.schatz_relevance_score))).mergeSort reportLe

/-- The result set `results` of `generate_report` (line 302): threshold 5. -/
def report_results (L : List EvidenceRow) : List EvidenceRow :=
  query_by_min_score 5 L

/-- HIGH section membership (line 312): score at least 8. -/
def high_priority (L : List EvidenceRow) : List EvidenceRow :=
  (report_results L).filter (fun r => decide (8 ≤ r.schatz_relevance_score))

/-- MEDIUM section membership (line 323): score at least 5 and below 8. -/
def medium_priority (L : List EvidenceRow) : List EvidenceRow :=
  (report_results L).filter
    (fun r => decide (5 ≤ r.schatz_relevance_score) && decide (r.schatz_relevance_score < 8))

/-- Guard of the per-document email block in the HIGH section (line 317):
Python truthiness of the stored email_from value. -/
def email_block_shown (doc : EvidenceRow) : Bool := pyTruthy doc.email_from


theorem updateRow_updateRow (r : EvidenceRecord) (row : EvidenceRow) :
    updateRow r (updateRow r row) = updateRow r row := rfl

theorem updateRow_insertRow (now : Nat) (r : EvidenceRecord) :
    updateRow r (insertRow now r) = insertRow now r := rfl

theorem rowMatches_updateRow (r : EvidenceRecord) (row : EvidenceRow) :
    rowMatches r (updateRow r row) = rowMatches r row := rfl

theorem rowMatches_insertRow (now : Nat) (r : EvidenceRecord) :
    rowMatches r (insertRow now r) = true := by
  simp [rowMatches, insertRow]

theorem upsert_any (now : Nat) (r : EvidenceRecord) (L : List EvidenceRow) :
    (upsert now r L).any (rowMatches r) = true := by
  unfold upsert
  by_cases h : L.any (rowMatches r)
  · rw [if_pos h]
    rcases List.any_eq_true.mp h with ⟨row, hmem, hmatch⟩
    refine List.any_eq_true.mpr ⟨updateRow r row, List.mem_map.mpr ⟨row, hmem, ?_⟩, ?_⟩
    · simp [hmatch]
    · rw [rowMatches_updateRow]; exact hmatch
  · rw [if_neg h]
    simp [List.any_append, rowMatches_insertRow]

theorem upsert_upsert (now₁ now₂ : Nat) (r : EvidenceRecord) (L : List EvidenceRow) :
    upsert now₂ r (upsert now₁ r L) = upsert now₁ r L := by
  have hstep : ∀ row : EvidenceRow,
      (if rowMatches r (if rowMatches r row then updateRow r row else row) then
        updateRow r (if rowMatches r row then updateRow r row else row)
       else (if rowMatches r row then updateRow r row else row)) =
      (if rowMatches r row then updateRow r row else row) := by
    intro row
    by_cases hm : rowMatches r row
    · simp [hm, rowMatches_updateRow, updateRow_updateRow]
    · simp [hm]
  have hany := upsert_any now₁ r L
  rw [upsert, if_pos hany]
  unfold upsert at *
  by_cases h : L.any (rowMatches r)
  · rw [if_pos h] at hany ⊢
    rw [List.map_map]
    exact List.map_congr_left fun row _ => hstep row
  · rw [if_neg h] at hany ⊢
    have hnone : ∀ row ∈ L, ¬ rowMatches r row = true := by
      intro row hmem
      exact List.any_eq_false.mp (by simpa using h) row hmem
    rw [List.map_append]
    have h1 : L.map (fun row => if rowMatches r row then updateRow r row else row) = L := by
      have := List.map_congr_left (l := L)
        (f := fun row => if rowMatches r row then updateRow r row else row) (g := id)
        (fun row hmem => by simp [hnone row hmem])
      simpa using this
    have h2 : [insertRow now₁ r].map
        (fun row => if rowMatches r row then updateRow r row else row) = [insertRow now₁ r] := by
      simp [rowMatches_insertRow, updateRow_insertRow]
    rw [h1, h2]

/-- C1: applying the upsert of the same Evidence Record twice leaves the ledger
in exactly the state of applying it once, and re-processing the same file with
the same environment leaves the ledger unchanged after the second pass. -/
theorem upsert_idempotent_on_identity (env : Env) (now₁ now₂ : Nat) (fp : Str)
    (r : EvidenceRecord) (L : List EvidenceRow) :
    upsert now₂ r (upsert now₁ r L) = upsert now₁ r L ∧
    (process_document env now₂ fp (process_document env now₁ fp L).2).2 =
      (process_document env now₁ fp L).2 := by
  refine ⟨upsert_upsert now₁ now₂ r L, ?_⟩
  unfold process_document
  cases hg : generate_chitty_id env fp with
  | error e => simp
  | ok cid =>
    cases hh : calculate_file_hash env fp with
    | error e => simp
    | ok fh =>
      cases hs : env.stat fp with
      | none => simp
      | some st => simp [upsert_upsert]


/-- C2: when an upsert hits an existing row with the same identity, exactly the
twelve mutable columns are overwritten from the new record, while the key,
created_at and ingested_at keep their values from the first insert, and the
annotation columns (tags, summary, legal_privilege, evidence_category) are
never modified by any upsert. -/
theorem upsert_overwrites_exactly_mutable_fields (now : Nat) (r : EvidenceRecord)
    (L : List EvidenceRow) (row : EvidenceRow)
    (hmem : row ∈ L) (hkey : row.chitty_id = r.chitty_id) :
    (updateRow r row ∈ upsert now r L ∧
     (updateRow r row).original_path = r.original_path ∧
     (updateRow r row).filename = r.filename ∧
     (updateRow r row).file_hash = r.file_hash ∧
     (updateRow r row).file_size = r.file_size ∧
     (updateRow r row).content_type = r.content_type ∧
     (updateRow r row).modified_at = r.modified_at ∧
     (updateRow r row).schatz_relevance_score = r.schatz_relevance_score ∧
     (updateRow r row).document_type = r.document_type ∧
     (updateRow r row).email_from = some r.email_from ∧
     (updateRow r row).email_to = some r.email_to ∧
     (updateRow r row).email_subject = some r.email_subject ∧
     (updateRow r row).email_date = some r.email_date ∧
     (updateRow r row).chitty_id = row.chitty_id ∧
     (updateRow r row).created_at = row.created_at ∧
     (updateRow r row).ingested_at = row.ingested_at ∧
     (updateRow r row).tags = row.tags ∧
     (updateRow r row).summary = row.summary ∧
     (updateRow r row).legal_privilege = row.legal_privilege ∧
     (updateRow r row).evidence_category = row.evidence_category) ∧
    (∀ rowA ∈ upsert now r L,
      (∃ rowB ∈ L, rowA.chitty_id = rowB.chitty_id ∧
        rowA.created_at = rowB.created_at ∧
        rowA.ingested_at = rowB.ingested_at ∧
        rowA.tags = rowB.tags ∧ rowA.summary = rowB.summary ∧
        rowA.legal_privilege = rowB.legal_privilege ∧
        rowA.evidence_category = rowB.evidence_category) ∨
      (rowA = insertRow now r ∧ rowA.tags = none ∧ rowA.summary = none ∧
       rowA.legal_privilege = none ∧ rowA.evidence_category = none)) := by
  have hmatch : rowMatches r row = true := by simp [rowMatches, hkey]
  have hany : L.any (rowMatches r) = true := List.any_eq_true.mpr ⟨row, hmem, hmatch⟩
  constructor
  · refine ⟨?_, rfl, rfl, rfl, rfl, rfl, rfl, rfl, rfl, rfl, rfl, rfl, rfl,
      rfl, rfl, rfl, rfl, rfl, rfl, rfl⟩
    rw [upsert, if_pos hany]
    exact List.mem_map.mpr ⟨row, hmem, by simp [hmatch]⟩
  · intro rowA hA
    rw [upsert, if_pos hany] at hA
    rcases List.mem_map.mp hA with ⟨rowB, hBmem, hBeq⟩
    left
    refine ⟨rowB, hBmem, ?_⟩
    by_cases hb : rowMatches r rowB
    · rw [if_pos hb] at hBeq
      subst hBeq
      exact ⟨rfl, rfl, rfl, rfl, rfl, rfl, rfl⟩
    · rw [if_neg hb] at hBeq
      subst hBeq
      exact ⟨rfl, rfl, rfl, rfl, rfl, rfl, rfl⟩

/-- Concrete existing row used to witness the frame theorem. -/
def rowW : EvidenceRow :=
  { chitty_id := ("ID1").toList
    original_path := ("old/path.eml").toList
    filename := ("path.eml").toList
    file_hash := ("aaa").toList
    file_size := 10
    content_type := ("EMAIL").toList
    created_at := 1
    modified_at := 2
    ingested_at := 3
    schatz_relevance_score := 4
    document_type := ("EMAIL").toList
    email_from := some ("x@y.z").toList
    email_to := some []
    email_subject := some []
    email_date := some []
    tags := some ("curated").toList
    summary := some ("note").toList
    legal_privilege := some ("AC").toList
    evidence_category := some ("billing-dispute").toList }

/-- Concrete incoming record with the same identity as `rowW`. -/
def recW : EvidenceRecord :=
  { chitty_id := ("ID1").toList
    original_path := ("new/path.eml").toList
    filename := ("path.eml").toList
    file_hash := ("bbb").toList
    file_size := 11
    content_type := ("EMAIL").toList
    created_at := 1
    modified_at := 9
    schatz_relevance_score := 8
    document_type := ("EMAIL").toList
    email_from := ("x@y.z").toList
    email_to := []
    email_subject := []
    email_date := [] }

/-- Witness for the frame theorem at a concrete ledger. -/
theorem upsert_overwrites_exactly_mutable_fields_witness :
    (rowW ∈ [rowW] ∧ rowW.chitty_id = recW.chitty_id) ∧
    (updateRow recW rowW ∈ upsert 7 recW [rowW] ∧
     (updateRow recW rowW).file_hash = recW.file_hash ∧
     (updateRow recW rowW).ingested_at = rowW.ingested_at ∧
     (updateRow recW rowW).tags = rowW.tags) := by
  have h := upsert_overwrites_exactly_mutable_fields 7 recW [rowW] rowW
    (List.mem_singleton.mpr rfl) rfl
  obtain ⟨⟨hm, _, _, hhash, _, _, _, _, _, _, _, _, _, _, _, hing, htags, _⟩, -⟩ := h
  exact ⟨⟨List.mem_singleton.mpr rfl, rfl⟩, hm, hhash, hing, htags⟩


/-- The content-side rule terms of lines 175-185, all lowercase. -/
def scoredTerms : List Str :=
  [("schatz").toList, ("jonathanschatz@allenglassman.com").toList,
   ("allen glassman").toList] ++ legalTerms ++ financialTerms

theorem ite_add_mono {x y k : Int} {a b : Bool} (hxy : x ≤ y) (hk : 0 ≤ k)
    (hab : a = true → b = true) :
    (if a then x + k else x) ≤ (if b then y + k else y) := by
  cases a
  · cases b <;> simp <;> omega
  · rw [hab rfl]; simp; omega

/-- C3: the relevance score is an integer in [0, 10], and adding matching
terms to the content sample can only raise it: if every scored term contained
(case-insensitively) in sample s is also contained in sample sB, then the
score of sB is at least the score of s. -/
theorem relevance_bounded_and_monotone (filepath s sB : Str) :
    (0 ≤ assess_schatz_relevance filepath s ∧ assess_schatz_relevance filepath s ≤ 10) ∧
    ((∀ t ∈ scoredTerms, strContains t (pyLower s) = true →
        strContains t (pyLower sB) = true) →
      assess_schatz_relevance filepath s ≤ assess_schatz_relevance filepath sB) := by
  constructor
  · dsimp only [assess_schatz_relevance]
    split_ifs <;> constructor <;> rw [min_def] <;> split_ifs <;> omega
  · intro h
    have hschatz := h (("schatz").toList) (by simp [scoredTerms])
    have hemail := h (("jonathanschatz@allenglassman.com").toList) (by simp [scoredTerms])
    have hglass := h (("allen glassman").toList) (by simp [scoredTerms])
    have hlegal : legalTerms.any (fun term => strContains term (pyLower s)) = true →
        legalTerms.any (fun term => strContains term (pyLower sB)) = true := by
      intro hx
      rcases List.any_eq_true.mp hx with ⟨t, ht, hc⟩
      exact List.any_eq_true.mpr ⟨t, ht, h t (by simp [scoredTerms, List.mem_append]; tauto) hc⟩
    have hfin : financialTerms.any (fun term => strContains term (pyLower s)) = true →
        financialTerms.any (fun term => strContains term (pyLower sB)) = true := by
      intro hx
      rcases List.any_eq_true.mp hx with ⟨t, ht, hc⟩
      exact List.any_eq_true.mpr ⟨t, ht, h t (by simp [scoredTerms, List.mem_append]; tauto) hc⟩
    have hor : (strContains (("schatz").toList) (pyLower filepath) ||
        strContains (("schatz").toList) (pyLower s)) = true →
        (strContains (("schatz").toList) (pyLower filepath) ||
        strContains (("schatz").toList) (pyLower sB)) = true := by
      intro hx
      rw [Bool.or_eq_true] at hx ⊢
      rcases hx with hx | hx
      · exact Or.inl hx
      · exact Or.inr (hschatz hx)
    dsimp only [assess_schatz_relevance]
    refine min_le_min ?_ le_rfl
    exact ite_add_mono (ite_add_mono (ite_add_mono (ite_add_mono (ite_add_mono le_rfl
      (by norm_num) hor) (by norm_num) hemail) (by norm_num) hglass)
      (by norm_num) hlegal) (by norm_num) hfin

/-- Witness for the relevance theorem at concrete samples. -/
theorem relevance_bounded_and_monotone_witness :
    (∀ t ∈ scoredTerms, strContains t (pyLower ("legal memo").toList) = true →
        strContains t (pyLower ("legal memo about a retainer").toList) = true) ∧
    (0 ≤ assess_schatz_relevance ("a/b.txt").toList (("legal memo").toList) ∧
     assess_schatz_relevance ("a/b.txt").toList (("legal memo").toList) ≤ 10) ∧
    assess_schatz_relevance ("a/b.txt").toList (("legal memo").toList) ≤
      assess_schatz_relevance ("a/b.txt").toList (("legal memo about a retainer").toList) := by
  have h := relevance_bounded_and_monotone (("a/b.txt").toList) (("legal memo").toList)
    (("legal memo about a retainer").toList)
  exact ⟨by decide, h.1, h.2 (by decide)⟩


/-- Choice between a later match and an earlier value: the later match wins
when present. -/
def orKeep (new old : Option Str) : Option Str :=
  match new with
  | some v => some v
  | none => old

/-- The value the scan of lines 153-161 ends up keeping for one header label:
the stripped remainder of the LAST line carrying the label prefix, if any. -/
def lastHeader (label : Str) (k : Nat) : List Str → Option Str
  | [] => none
  | l :: ls =>
    orKeep (lastHeader label k ls)
      (if List.isPrefixOf label l then some (pyStrip (l.drop k)) else none)

theorem orKeep_none (x : Option Str) : orKeep x none = x := by
  cases x <;> rfl

theorem prefix_forces_head {p l : Str} {c : Char} (hc : p.head? = some c)
    (hp : List.isPrefixOf p l = true) : l.head? = some c := by
  rw [List.isPrefixOf_iff_prefix] at hp
  rcases hp with ⟨t, ht⟩
  subst ht
  cases p with
  | nil => simp at hc
  | cons a as => simpa using hc

theorem headerStep_from (m : EmailMeta) (l : Str) :
    (headerStep m l).from_ =
      orKeep (if List.isPrefixOf (("From:").toList) l then some (pyStrip (l.drop 5)) else none)
        m.from_ := by
  unfold headerStep
  split_ifs <;> rfl

theorem headerStep_to (m : EmailMeta) (l : Str) :
    (headerStep m l).to_ =
      orKeep (if List.isPrefixOf (("To:").toList) l then some (pyStrip (l.drop 3)) else none)
        m.to_ := by
  unfold headerStep
  by_cases h1 : List.isPrefixOf (("From:").toList) l = true
  · have h2 : ¬ List.isPrefixOf (("To:").toList) l = true := by
      intro hx
      have e1 := prefix_forces_head (p := ("From:").toList) rfl h1
      have e2 := prefix_forces_head (p := ("To:").toList) rfl hx
      rw [e1] at e2
      simp at e2
    rw [if_pos h1, if_neg h2]
    rfl
  · rw [if_neg h1]
    split_ifs <;> rfl

theorem headerStep_subject (m : EmailMeta) (l : Str) :
    (headerStep m l).subject =
      orKeep
        (if List.isPrefixOf (("Subject:").toList) l then some (pyStrip (l.drop 8)) else none)
        m.subject := by
  unfold headerStep
  by_cases h1 : List.isPrefixOf (("From:").toList) l = true
  · have h3 : ¬ List.isPrefixOf (("Subject:").toList) l = true := by
      intro hx
      have e1 := prefix_forces_head (p := ("From:").toList) rfl h1
      have e2 := prefix_forces_head (p := ("Subject:").toList) rfl hx
      rw [e1] at e2
      simp at e2
    rw [if_pos h1, if_neg h3]
    rfl
  · rw [if_neg h1]
    by_cases h2 : List.isPrefixOf (("To:").toList) l = true
    · have h3 : ¬ List.isPrefixOf (("Subject:").toList) l = true := by
        intro hx
        have e1 := prefix_forces_head (p := ("To:").toList) rfl h2
        have e2 := prefix_forces_head (p := ("Subject:").toList) rfl hx
        rw [e1] at e2
        simp at e2
      rw [if_pos h2, if_neg h3]
      rfl
    · rw [if_neg h2]
      split_ifs <;> rfl

theorem headerStep_date (m : EmailMeta) (l : Str) :
    (headerStep m l).date =
      orKeep (if List.isPrefixOf (("Date:").toList) l then some (pyStrip (l.drop 5)) else none)
        m.date := by
  unfold headerStep
  by_cases h1 : List.isPrefixOf (("From:").toList) l = true
  · have h4 : ¬ List.isPrefixOf (("Date:").toList) l = true := by
      intro hx
      have e1 := prefix_forces_head (p := ("From:").toList) rfl h1
      have e2 := prefix_forces_head (p := ("Date:").toList) rfl hx
      rw [e1] at e2
      simp at e2
    rw [if_pos h1, if_neg h4]
    rfl
  · rw [if_neg h1]
    by_cases h2 : List.isPrefixOf (("To:").toList) l = true
    · have h4 : ¬ List.isPrefixOf (("Date:").toList) l = true := by
        intro hx
        have e1 := prefix_forces_head (p := ("To:").toList) rfl h2
        have e2 := prefix_forces_head (p := ("Date:").toList) rfl hx
        rw [e1] at e2
        simp at e2
      rw [if_pos h2, if_neg h4]
      rfl
    · rw [if_neg h2]
      by_cases h3 : List.isPrefixOf (("Subject:").toList) l = true
      · have h4 : ¬ List.isPrefixOf (("Date:").toList) l = true := by
          intro hx
          have e1 := prefix_forces_head (p := ("Subject:").toList) rfl h3
          have e2 := prefix_forces_head (p := ("Date:").toList) rfl hx
          rw [e1] at e2
          simp at e2
        rw [if_pos h3, if_neg h4]
        rfl
      · rw [if_neg h3]
        split_ifs <;> rfl

theorem orKeep_assoc (a b c : Option Str) :
    orKeep (orKeep a b) c = orKeep a (orKeep b c) := by
  cases a <;> cases b <;> rfl

theorem foldl_headerStep_from (ls : List Str) (m : EmailMeta) :
    (ls.foldl headerStep m).from_ = orKeep (lastHeader (("From:").toList) 5 ls) m.from_ := by
  induction ls generalizing m with
  | nil => rfl
  | cons l ls ih =>
    rw [List.foldl_cons, ih, lastHeader, orKeep_assoc, headerStep_from]

theorem foldl_headerStep_to (ls : List Str) (m : EmailMeta) :
    (ls.foldl headerStep m).to_ = orKeep (lastHeader (("To:").toList) 3 ls) m.to_ := by
  induction ls generalizing m with
  | nil => rfl
  | cons l ls ih =>
    rw [List.foldl_cons, ih, lastHeader, orKeep_assoc, headerStep_to]

theorem foldl_headerStep_subject (ls : List Str) (m : EmailMeta) :
    (ls.foldl headerStep m).subject =
      orKeep (lastHeader (("Subject:").toList) 8 ls) m.subject := by
  induction ls generalizing m with
  | nil => rfl
  | cons l ls ih =>
    rw [List.foldl_cons, ih, lastHeader, orKeep_assoc, headerStep_subject]

theorem foldl_headerStep_date (ls : List Str) (m : EmailMeta) :
    (ls.foldl headerStep m).date = orKeep (lastHeader (("Date:").toList) 5 ls) m.date := by
  induction ls generalizing m with
  | nil => rfl
  | cons l ls ih =>
    rw [List.foldl_cons, ih, lastHeader, orKeep_assoc, headerStep_date]

/-- Environment whose only readable file has a single From: line. -/
def envOneFrom : Env :=
  { svc := fun _ => none
    stat := fun _ => none
    readText := fun _ => some (("From: a").toList)
    readBytes := fun _ => none
    sha256hex := fun _ => [] }

/-- Environment whose only readable file has two From: lines. -/
def envTwoFrom : Env :=
  { svc := fun _ => none
    stat := fun _ => none
    readText := fun _ => some (("From: a\nFrom: b").toList)
    readBytes := fun _ => none
    sha256hex := fun _ => [] }

/-- C4 counterexample: a second From: line DOES change the extracted value —
the later occurrence wins, refuting first-occurrence-wins at this input. -/
theorem extract_first_occurrence_cex :
    (extract_email_metadata envOneFrom (("m.eml").toList)).from_ = some (("a").toList) ∧
    (extract_email_metadata envTwoFrom (("m.eml").toList)).from_ = some (("b").toList) ∧
    some (("b").toList) ≠ some (("a").toList) := by
  refine ⟨by decide, by decide, by decide⟩

/-- C4 amended: the extractor inspects at most the first 50 lines, matches
each header label case-sensitively as a line prefix, strips whitespace from
the value, and keeps at most one value per label — the LAST occurrence within
those lines winning. -/
theorem extract_email_metadata_spec (env : Env) (filepath content : Str)
    (hread : env.readText filepath = some content) :
    (extract_email_metadata env filepath).from_ =
      lastHeader (("From:").toList) 5 ((splitOnNl content).take 50) ∧
    (extract_email_metadata env filepath).to_ =
      lastHeader (("To:").toList) 3 ((splitOnNl content).take 50) ∧
    (extract_email_metadata env filepath).subject =
      lastHeader (("Subject:").toList) 8 ((splitOnNl content).take 50) ∧
    (extract_email_metadata env filepath).date =
      lastHeader (("Date:").toList) 5 ((splitOnNl content).take 50) := by
  unfold extract_email_metadata
  rw [hread]
  refine ⟨?_, ?_, ?_, ?_⟩
  · rw [foldl_headerStep_from, show EmailMeta.empty.from_ = none from rfl, orKeep_none]
  · rw [foldl_headerStep_to, show EmailMeta.empty.to_ = none from rfl, orKeep_none]
  · rw [foldl_headerStep_subject, show EmailMeta.empty.subject = none from rfl, orKeep_none]
  · rw [foldl_headerStep_date, show EmailMeta.empty.date = none from rfl, orKeep_none]

/-- Witness for the amended extractor theorem at a concrete file. -/
theorem extract_email_metadata_spec_witness :
    envTwoFrom.readText (("m.eml").toList) = some (("From: a\nFrom: b").toList) ∧
    (extract_email_metadata envTwoFrom (("m.eml").toList)).from_ =
      lastHeader (("From:").toList) 5
        ((splitOnNl (("From: a\nFrom: b").toList)).take 50) := by
  exact ⟨rfl,
    (extract_email_metadata_spec envTwoFrom (("m.eml").toList)
      (("From: a\nFrom: b").toList) rfl).1⟩


theorem suffix_forces_last {p l : Str} {c : Char} (hc : p.getLast? = some c)
    (hp : List.isSuffixOf p l = true) : l.getLast? = some c := by
  rw [List.isSuffixOf_iff_suffix] at hp
  rcases hp with ⟨t, ht⟩
  subst ht
  rw [List.getLast?_append, hc]
  rfl

/-- Environment for the upper-case extension counterexample: the file is a
well-formed email text, readable and statable, and the identity service
succeeds. -/
def envUpper : Env :=
  { svc := fun _ => some { status := 200, chitty_id := ("ID1").toList }
    stat := fun _ => some { st_size := 3, st_ctime := 1, st_mtime := 2 }
    readText := fun _ => some (("From: someone@x.com").toList)
    readBytes := fun _ => some [0]
    sha256hex := fun _ => ("h").toList }

/-- C5 counterexample: "A.EML" passes the case-insensitive accepted-set filter
of the scan, yet the processed document is classified UNKNOWN — not EMAIL —
and its stored email_from is the empty string: classification is
case-sensitive. -/
theorem extension_case_cex :
    eligible (("A.EML").toList) = true ∧
    (classify_document envUpper (pyJoin (("r").toList) (("A.EML").toList))).1 =
      ("UNKNOWN").toList ∧
    ((process_document envUpper 1 (pyJoin (("r").toList) (("A.EML").toList)) []).2.map
      (fun row => (row.content_type, row.email_from))) =
      [((("UNKNOWN").toList), some [])] ∧
    ("UNKNOWN").toList ≠ ("EMAIL").toList := by
  refine ⟨by decide, by decide, by decide, by decide⟩

/-- C5 amended: the accepted-set filter of the directory scan is
case-insensitive over {eml, msg, pdf, txt, docx}, but classification inside
process_document is case-sensitive on the exact lowercase extension: paths
ending ".eml" are classified EMAIL with email metadata extracted and a 10KB
content sample, ".pdf" PDF with no sample, ".txt" TEXT with a 5KB sample, and
every other path — including upper-case variants such as ".EML" — UNKNOWN
with no metadata and no sample. -/
theorem extension_handling_spec :
    (∀ name : Str, eligible name = true ↔
      (List.isSuffixOf ((".eml").toList) (pyLower name) = true ∨
       List.isSuffixOf ((".msg").toList) (pyLower name) = true ∨
       List.isSuffixOf ((".pdf").toList) (pyLower name) = true ∨
       List.isSuffixOf ((".txt").toList) (pyLower name) = true ∨
       List.isSuffixOf ((".docx").toList) (pyLower name) = true)) ∧
    (∀ env fp, List.isSuffixOf ((".eml").toList) fp = true →
      classify_document env fp = ((("EMAIL").toList),
        extract_email_metadata env fp,
        match env.readText fp with
        | some content => content.take 10000
        | none => [])) ∧
    (∀ env fp, List.isSuffixOf ((".pdf").toList) fp = true →
      classify_document env fp = ((("PDF").toList), EmailMeta.empty, [])) ∧
    (∀ env fp, List.isSuffixOf ((".txt").toList) fp = true →
      classify_document env fp = ((("TEXT").toList), EmailMeta.empty,
        match env.readText fp with
        | some content => content.take 5000
        | none => [])) ∧
    (∀ env fp, ¬ List.isSuffixOf ((".eml").toList) fp = true →
      ¬ List.isSuffixOf ((".pdf").toList) fp = true →
      ¬ List.isSuffixOf ((".txt").toList) fp = true →
      classify_document env fp = ((("UNKNOWN").toList), EmailMeta.empty, [])) := by
  refine ⟨?_, ?_, ?_, ?_, ?_⟩
  · intro name
    simp [eligible]
  · intro env fp h
    unfold classify_document
    rw [if_pos h]
  · intro env fp h
    have hne : ¬ List.isSuffixOf ((".eml").toList) fp = true := by
      intro hx
      have e1 := suffix_forces_last (p := (".pdf").toList) rfl h
      have e2 := suffix_forces_last (p := (".eml").toList) rfl hx
      rw [e1] at e2
      simp at e2
    unfold classify_document
    rw [if_neg hne, if_pos h]
  · intro env fp h
    have hne1 : ¬ List.isSuffixOf ((".eml").toList) fp = true := by
      intro hx
      have e1 := suffix_forces_last (p := (".txt").toList) rfl h
      have e2 := suffix_forces_last (p := (".eml").toList) rfl hx
      rw [e1] at e2
      simp at e2
    have hne2 : ¬ List.isSuffixOf ((".pdf").toList) fp = true := by
      intro hx
      have e1 := suffix_forces_last (p := (".txt").toList) rfl h
      have e2 := suffix_forces_last (p := (".pdf").toList) rfl hx
      rw [e1] at e2
      simp at e2
    unfold classify_document
    rw [if_neg hne1, if_neg hne2, if_pos h]
  · intro env fp h1 h2 h3
    unfold classify_document
    rw [if_neg h1, if_neg h2, if_neg h3]

/-- Witness for the amended extension theorem at concrete paths. -/
theorem extension_handling_spec_witness :
    (eligible (("A.EML").toList) = true ↔
      (List.isSuffixOf ((".eml").toList) (pyLower (("A.EML").toList)) = true ∨
       List.isSuffixOf ((".msg").toList) (pyLower (("A.EML").toList)) = true ∨
       List.isSuffixOf ((".pdf").toList) (pyLower (("A.EML").toList)) = true ∨
       List.isSuffixOf ((".txt").toList) (pyLower (("A.EML").toList)) = true ∨
       List.isSuffixOf ((".docx").toList) (pyLower (("A.EML").toList)) = true)) ∧
    (List.isSuffixOf ((".eml").toList) (("r/a.eml").toList) = true ∧
      classify_document envUpper (("r/a.eml").toList) = ((("EMAIL").toList),
        extract_email_metadata envUpper (("r/a.eml").toList),
        match envUpper.readText (("r/a.eml").toList) with
        | some content => content.take 10000
        | none => [])) := by
  refine ⟨(extension_handling_spec).1 (("A.EML").toList), by decide,
    (extension_handling_spec).2.1 envUpper (("r/a.eml").toList) (by decide)⟩


/-- The identity call for `fp` fails: transport failure or non-200 status. -/
def identityFails (env : Env) (fp : Str) : Prop :=
  env.svc fp = none ∨ ∃ resp, env.svc fp = some resp ∧ resp.status ≠ 200

theorem generate_chitty_id_error (env : Env) (fp : Str) (hfail : identityFails env fp) :
    ∀ cid, generate_chitty_id env fp ≠ .ok cid := by
  intro cid
  unfold generate_chitty_id
  cases hst : env.stat fp with
  | none => simp
  | some st =>
    rcases hfail with hnone | ⟨resp, hresp, hstatus⟩
    · rw [hnone]
      simp
    · rw [hresp]
      simp [hstatus]

theorem process_document_fail (env : Env) (now : Nat) (fp : Str)
    (hfail : identityFails env fp) (L : List EvidenceRow) :
    process_document env now fp L = (none, L) := by
  unfold process_document
  cases hg : generate_chitty_id env fp with
  | error e => rfl
  | ok cid => exact absurd hg (generate_chitty_id_error env fp hfail cid)

/-- C6: when the identity service fails for a file (transport failure or any
non-success status), no row is written for it and no identifier is produced —
and a directory scan containing that file yields exactly the count and ledger
of the same scan without it: the failure is skipped, the scan continues. -/
theorem identity_failure_skips_document (env : Env) (now : Nat) (root name : Str)
    (fs₁ fs₂ : List (Str × Str)) (L : List EvidenceRow)
    (hfail : identityFails env (pyJoin root name)) :
    process_document env now (pyJoin root name) L = (none, L) ∧
    scan_directory env now (fs₁ ++ (root, name) :: fs₂) L =
      scan_directory env now (fs₁ ++ fs₂) L := by
  refine ⟨process_document_fail env now (pyJoin root name) hfail L, ?_⟩
  unfold scan_directory
  rw [List.foldl_append, List.foldl_append, List.foldl_cons]
  congr 1
  set acc := List.foldl _ (0, L) fs₁ with hacc
  by_cases he : eligible name = true
  · simp only [he, if_pos]
    rw [process_document_fail env now (pyJoin root name) hfail acc.2]
    rfl
  · simp only [he]
    rfl

/-- Environment in which the identity service answers HTTP 500 for every
request, while the file itself is perfectly readable. -/
def env500 : Env :=
  { svc := fun _ => some { status := 500, chitty_id := [] }
    stat := fun _ => some { st_size := 3, st_ctime := 1, st_mtime := 2 }
    readText := fun _ => some (("hello").toList)
    readBytes := fun _ => some [0]
    sha256hex := fun _ => ("h").toList }

/-- Witness for the identity-failure theorem at a concrete scan. -/
theorem identity_failure_skips_document_witness :
    identityFails env500 (pyJoin (("r").toList) (("a.txt").toList)) ∧
    process_document env500 0 (pyJoin (("r").toList) (("a.txt").toList)) [] = (none, []) ∧
    scan_directory env500 0 ([] ++ ((("r").toList), (("a.txt").toList)) :: []) [] =
      scan_directory env500 0 ([] ++ []) [] := by
  have hfail : identityFails env500 (pyJoin (("r").toList) (("a.txt").toList)) :=
    Or.inr ⟨{ status := 500, chitty_id := [] }, rfl, by decide⟩
  have h := identity_failure_skips_document env500 0 (("r").toList) (("a.txt").toList)
    [] [] [] hfail
  exact ⟨hfail, h.1, h.2⟩


theorem reportLe_trans (a b c : EvidenceRow) (hab : reportLe a b = true)
    (hbc : reportLe b c = true) : reportLe a c = true := by
  simp only [reportLe, Bool.or_eq_true, Bool.and_eq_true, beq_iff_eq,
    decide_eq_true_eq] at hab hbc ⊢
  omega

theorem reportLe_total (a b : EvidenceRow) : (reportLe a b || reportLe b a) = true := by
  simp only [reportLe, Bool.or_eq_true, Bool.and_eq_true, beq_iff_eq,
    decide_eq_true_eq]
  omega

/-- C8: the report query returns exactly the rows whose relevance score meets
the threshold (as a multiset), arranged so that scores are non-increasing and
rows of equal score are in non-decreasing ingestion order; being a function of
the ledger state, the resulting order is deterministic. -/
theorem query_by_min_score_spec (threshold : Int) (L : List EvidenceRow) :
    (query_by_min_score threshold L).Perm
      (L.filter (fun row => decide (threshold ≤ row.schatz_relevance_score))) ∧
    (query_by_min_score threshold L).Pairwise (fun a b =>
      b.schatz_relevance_score < a.schatz_relevance_score ∨
      (a.schatz_relevance_score = b.schatz_relevance_score ∧
        a.ingested_at ≤ b.ingested_at)) := by
  constructor
  · exact List.mergeSort_perm _ reportLe
  · have hs := List.sorted_mergeSort reportLe_trans reportLe_total
      (L.filter (fun row => decide (threshold ≤ row.schatz_relevance_score)))
    refine hs.imp (fun hab => ?_)
    simpa only [reportLe, Bool.or_eq_true, Bool.and_eq_true, beq_iff_eq,
      decide_eq_true_eq] using hab

/-- C7: report tiering is exhaustive and disjoint — counting occurrences, the
HIGH and MEDIUM sections together hold every queried row with score at least
5 exactly once, and no row with score below 5 ever appears in either. -/
theorem report_tiering_partition (L : List EvidenceRow) (row : EvidenceRow) :
    (high_priority L).count row + (medium_priority L).count row =
      if 5 ≤ row.schatz_relevance_score then L.count row else 0 := by
  have hperm : (report_results L).Perm
      (L.filter (fun r => decide (5 ≤ r.schatz_relevance_score))) :=
    List.mergeSort_perm _ reportLe
  have hcq : (report_results L).count row =
      (L.filter (fun r => decide (5 ≤ r.schatz_relevance_score))).count row :=
    hperm.count_eq row
  by_cases h8 : 8 ≤ row.schatz_relevance_score
  · have h5 : 5 ≤ row.schatz_relevance_score := by omega
    have hhigh : (high_priority L).count row = (report_results L).count row :=
      List.count_filter (by simp [h8])
    have hmed : (medium_priority L).count row = 0 := by
      rw [List.count_eq_zero]
      intro hx
      have hx2 := (List.mem_filter.mp hx).2
      simp only [Bool.and_eq_true, decide_eq_true_eq] at hx2
      omega
    rw [hhigh, hmed, hcq, List.count_filter (by simp [h5]), if_pos h5]
    omega
  · by_cases h5 : 5 ≤ row.schatz_relevance_score
    · have hhigh : (high_priority L).count row = 0 := by
        rw [List.count_eq_zero]
        intro hx
        have hx2 := (List.mem_filter.mp hx).2
        simp only [decide_eq_true_eq] at hx2
        omega
      have hmed : (medium_priority L).count row = (report_results L).count row :=
        List.count_filter (by simp; omega)
      rw [hhigh, hmed, hcq, List.count_filter (by simp [h5]), if_pos h5]
      omega
    · have hhigh : (high_priority L).count row = 0 := by
        rw [List.count_eq_zero]
        intro hx
        have hx2 := (List.mem_filter.mp hx).2
        simp only [decide_eq_true_eq] at hx2
        omega
      have hmed : (medium_priority L).count row = 0 := by
        rw [List.count_eq_zero]
        intro hx
        have hx2 := (List.mem_filter.mp hx).2
        simp only [Bool.and_eq_true, decide_eq_true_eq] at hx2
        omega
      rw [hhigh, hmed, if_neg h5]


theorem upsert_forall {P : EvidenceRow → Prop} (now : Nat) (r : EvidenceRecord)
    (L : List EvidenceRow) (hL : ∀ row ∈ L, P row)
    (hupd : ∀ row ∈ L, P (updateRow r row)) (hins : P (insertRow now r)) :
    ∀ row ∈ upsert now r L, P row := by
  intro row hrow
  unfold upsert at hrow
  by_cases h : L.any (rowMatches r)
  · rw [if_pos h] at hrow
    rcases List.mem_map.mp hrow with ⟨rowB, hB, hEq⟩
    by_cases hb : rowMatches r rowB
    · rw [if_pos hb] at hEq
      subst hEq
      exact hupd rowB hB
    · rw [if_neg hb] at hEq
      subst hEq
      exact hL rowB hB
  · rw [if_neg h] at hrow
    rcases List.mem_append.mp hrow with hrow | hrow
    · exact hL row hrow
    · rw [List.mem_singleton.mp hrow]
      exact hins

/-- C9: the pipeline writes the same classification string to both the
content_type and document_type columns, so on any ledger whose rows already
satisfy content_type = document_type, every row after processing a document
still does — the two columns can never differ on pipeline-written rows. -/
theorem content_type_matches_document_type (env : Env) (now : Nat) (fp : Str)
    (L : List EvidenceRow)
    (hinv : ∀ row ∈ L, row.content_type = row.document_type) :
    ∀ row ∈ (process_document env now fp L).2,
      row.content_type = row.document_type := by
  cases hg : generate_chitty_id env fp with
  | error e =>
    simp only [process_document, hg]
    exact hinv
  | ok cid =>
    cases hh : calculate_file_hash env fp with
    | error e =>
      simp only [process_document, hg, hh]
      exact hinv
    | ok fh =>
      cases hs : env.stat fp with
      | none =>
        simp only [process_document, hg, hh, hs]
        exact hinv
      | some st =>
        simp only [process_document, hg, hh, hs]
        exact upsert_forall now _ L hinv (fun rowB hB => rfl) rfl

/-- Environment in which every step of processing succeeds. -/
def envOK : Env :=
  { svc := fun _ => some { status := 200, chitty_id := ("ID9").toList }
    stat := fun _ => some { st_size := 4, st_ctime := 1, st_mtime := 2 }
    readText := fun _ => some (("schatz retainer").toList)
    readBytes := fun _ => some [1, 2]
    sha256hex := fun _ => ("deadbeef").toList }

/-- Witness for the content_type/document_type invariant on a successful run. -/
theorem content_type_matches_document_type_witness :
    (∀ row ∈ ([] : List EvidenceRow), row.content_type = row.document_type) ∧
    (∀ row ∈ (process_document envOK 0 (("r/a.txt").toList) []).2,
      row.content_type = row.document_type) := by
  exact ⟨by simp, content_type_matches_document_type envOK 0 (("r/a.txt").toList) []
    (by simp)⟩

/-- C10: the four email columns of a pipeline-written row are always strings,
never NULL — rows are written with `some` values, defaulting to the empty
string when the document is not an .eml file or when a header is absent — and
the report shows the per-document email block exactly when the stored email_from
value is a non-empty string. -/
theorem email_fields_never_null (env : Env) (now : Nat) (fp : Str)
    (L : List EvidenceRow) :
    (¬ List.isSuffixOf ((".eml").toList) fp = true →
      (classify_document env fp).2.1 = EmailMeta.empty) ∧
    (∀ cid fh st dtype meta score,
      (meta.from_ = none → (build_record fp cid fh st dtype meta score).email_from = []) ∧
      (meta.to_ = none → (build_record fp cid fh st dtype meta score).email_to = []) ∧
      (meta.subject = none →
        (build_record fp cid fh st dtype meta score).email_subject = []) ∧
      (meta.date = none → (build_record fp cid fh st dtype meta score).email_date = [])) ∧
    ((∀ row ∈ L, (row.email_from).isSome = true ∧ (row.email_to).isSome = true ∧
        (row.email_subject).isSome = true ∧ (row.email_date).isSome = true) →
      ∀ row ∈ (process_document env now fp L).2,
        (row.email_from).isSome = true ∧ (row.email_to).isSome = true ∧
        (row.email_subject).isSome = true ∧ (row.email_date).isSome = true) ∧
    (∀ doc : EvidenceRow, email_block_shown doc = true ↔
      ∃ s, doc.email_from = some s ∧ s ≠ []) := by
  refine ⟨?_, ?_, ?_, ?_⟩
  · intro h
    unfold classify_document
    rw [if_neg h]
    split_ifs <;> rfl
  · intro cid fh st dtype meta score
    refine ⟨fun h => ?_, fun h => ?_, fun h => ?_, fun h => ?_⟩ <;>
      simp [build_record, h]
  · intro hinv
    cases hg : generate_chitty_id env fp with
    | error e =>
      simp only [process_document, hg]
      exact hinv
    | ok cid =>
      cases hh : calculate_file_hash env fp with
      | error e =>
        simp only [process_document, hg, hh]
        exact hinv
      | ok fh =>
        cases hs : env.stat fp with
        | none =>
          simp only [process_document, hg, hh, hs]
          exact hinv
        | some st =>
          simp only [process_document, hg, hh, hs]
          exact upsert_forall now _ L hinv
            (fun rowB hB => ⟨rfl, rfl, rfl, rfl⟩) ⟨rfl, rfl, rfl, rfl⟩
  · intro doc
    unfold email_block_shown pyTruthy
    cases hf : doc.email_from with
    | none => simp
    | some s =>
      constructor
      · intro hx
        refine ⟨s, rfl, fun hnil => ?_⟩
        subst hnil
        simp at hx
      · rintro ⟨t, ht, hne⟩
        cases Option.some.inj ht
        simpa using hne

/-- Witness for the email-fields theorem on a concrete run. -/
theorem email_fields_never_null_witness :
    (classify_document envOK (("r/x.pdf").toList)).2.1 = EmailMeta.empty ∧
    (∀ row ∈ (process_document envOK 0 (("r/x.pdf").toList) []).2,
      (row.email_from).isSome = true ∧ (row.email_to).isSome = true ∧
      (row.email_subject).isSome = true ∧ (row.email_date).isSome = true) := by
  have h := email_fields_never_null envOK 0 (("r/x.pdf").toList) []
  exact ⟨h.1 (by decide), h.2.2.1 (by simp)⟩

end Schatz
